import Mathlib

/-!
Verification of the in-memory book store (TypeScript sources `src/types.ts`,
`src/utils.ts`, `src/BookService.ts`) against its natural-language
specification.

Modelling conventions (shallow embedding):
* JavaScript strings are modelled as `List Char` (`JStr`); `String.prototype.trim`,
  `toLowerCase`, `includes` and `slice` are modelled by structural recursion below.
* JavaScript numbers that the program uses as integers (`year`, `page`,
  `pageSize`, counts) are modelled as `Int`; the `Number.isInteger` check of the
  validator is therefore always true in the model.
* The `Map<string, Book>` is modelled as an association list in insertion order;
  `Map.set` replaces the (unique) entry in place or appends a fresh one,
  `Map.delete` removes the entry, `Map.values()` is the list of values in order.
* Exceptions become `Except JsError`, `null` becomes `Option`, and the mutated
  `this.books` field is threaded explicitly through every operation.
* `generateId` reads `Date.now()` and `Math.random()`; those two environment
  samples are passed in as explicit oracle arguments.
-/

/-- JavaScript strings, modelled as lists of characters. -/
abbrev JStr : Type := List Char

/-- Whitespace as trimmed by `String.prototype.trim`, restricted to the
characters the repository can produce (space, tab, line feed, carriage return). -/
def jsWhitespaceChar (c : Char) : Bool :=
  decide (c.toNat = 32 ∨ c.toNat = 9 ∨ c.toNat = 10 ∨ c.toNat = 13)

/-- ASCII lowering of one character, as `String.prototype.toLowerCase` acts on
the ASCII range used by the repository. -/
def jsLowerChar (c : Char) : Char :=
  if 65 ≤ c.toNat ∧ c.toNat ≤ 90 then Char.ofNat (c.toNat + 32) else c

/-- `String.prototype.trim`: drop whitespace from both ends. -/
def jsTrim (l : JStr) : JStr :=
  ((l.dropWhile jsWhitespaceChar).reverse.dropWhile jsWhitespaceChar).reverse

/-- `String.prototype.toLowerCase`. -/
def jsToLower (l : JStr) : JStr :=
  l.map jsLowerChar

/-- `hay.includes(needle)`: substring containment. -/
def jsIncludes (hay needle : JStr) : Bool :=
  match hay with
  | [] => needle.isEmpty
  | c :: t => needle.isPrefixOf (c :: t) || jsIncludes t needle

/-- The single-quote character used by the `BookNotFoundError` message template. -/
def squoteChar : Char := Char.ofNat 39

/-- `Book` from `src/types.ts`. -/
structure Book where
  id : JStr
  title : JStr
  author : JStr
  year : Int
deriving DecidableEq

/-- `CreateBookData` from `src/types.ts`. -/
structure CreateBookData where
  title : JStr
  author : JStr
  year : Int
deriving DecidableEq

/-- `UpdateBookData` from `src/types.ts`: every field optional. -/
structure UpdateBookData where
  title : Option JStr
  author : Option JStr
  year : Option Int
deriving DecidableEq

/-- The two error classes of `src/types.ts`, as a tagged sum. -/
inductive JsError where
  | validationError (msg : String)
  | bookNotFoundError (id : JStr)
deriving DecidableEq

/-- The `message` property of each error object: `ValidationError` prefixes
the reason, `BookNotFoundError` embeds the offending id between single quotes. -/
def JsError.message : JsError → JStr
  | .validationError msg => ("Validation error: " ++ msg).toList
  | .bookNotFoundError id =>
      "Book with id ".toList ++ [squoteChar] ++ id ++ [squoteChar] ++ " not found".toList

/-- `Result<T>` from `src/types.ts`, the tagged success/failure outcome. -/
inductive Result (α : Type) where
  | success (data : α)
  | failure (error : JsError)
deriving DecidableEq

/-- `generateId` from `src/utils.ts`:
`book_${Date.now()}_${Math.random().toString(36).substr(2, 9)}`.
The `Date.now()` rendering and the random suffix are oracle inputs. -/
def generateId (nowMs rand : JStr) : JStr :=
  "book_".toList ++ nowMs ++ "_".toList ++ rand

/-- `validateCreateBookData` from `src/utils.ts`, with `new Date().getFullYear()`
passed in as `cy`. The `!data.title`/`typeof` guards collapse into the
trim-emptiness test (a typed field is always a string, and the empty string is
the only falsy string, whose trim is also empty); `Number.isInteger` is always
true on `Int`. Returns the first failing check's error, or `none`. -/
def validateCreateBookData (cy : Int) (data : CreateBookData) : Option JsError :=
  if (jsTrim data.title).isEmpty then
    some (.validationError "Title is required and must be a non-empty string")
  else if (jsTrim data.author).isEmpty then
    some (.validationError "Author is required and must be a non-empty string")
  else if data.year < 0 ∨ data.year > cy then
    some (.validationError ("Year must be between 0 and " ++ toString cy))
  else
    none

/-- Per-field title check of `validateUpdateBookData`. -/
def checkUpdateTitle : Option JStr → Option JsError
  | none => none
  | some t =>
      if (jsTrim t).isEmpty then some (.validationError "Title must be a non-empty string")
      else none

/-- Per-field author check of `validateUpdateBookData`. -/
def checkUpdateAuthor : Option JStr → Option JsError
  | none => none
  | some a =>
      if (jsTrim a).isEmpty then some (.validationError "Author must be a non-empty string")
      else none

/-- Per-field year check of `validateUpdateBookData`. -/
def checkUpdateYear (cy : Int) : Option Int → Option JsError
  | none => none
  | some y =>
      if y < 0 ∨ y > cy then
        some (.validationError ("Year must be between 0 and " ++ toString cy))
      else none

/-- `validateUpdateBookData` from `src/utils.ts`: the `Object.keys(data).length === 0`
guard is the all-fields-absent test, then the per-field checks run in order
title, author, year. -/
def validateUpdateBookData (cy : Int) (data : UpdateBookData) : Option JsError :=
  if data.title.isNone && data.author.isNone && data.year.isNone then
    some (.validationError "At least one field must be provided for update")
  else
    match checkUpdateTitle data.title with
    | some e => some e
    | none =>
      match checkUpdateAuthor data.author with
      | some e => some e
      | none => checkUpdateYear cy data.year

/-- `sanitizeString` from `src/utils.ts`. -/
def sanitizeString (input : JStr) : JStr :=
  jsTrim input

/-- `Map.prototype.get`. -/
def mapGet (m : List (JStr × Book)) (k : JStr) : Option Book :=
  match m with
  | [] => none
  | (k2, v) :: rest => if k2 = k then some v else mapGet rest k

/-- `Map.prototype.set`: replace the entry with key `k` in place, or append a
fresh entry at the end (JavaScript `Map` keeps insertion order). -/
def mapSet (m : List (JStr × Book)) (k : JStr) (v : Book) : List (JStr × Book) :=
  match m with
  | [] => [(k, v)]
  | (k2, v2) :: rest =>
      if k2 = k then (k, v) :: rest else (k2, v2) :: mapSet rest k v

/-- `Map.prototype.delete`: remove the entry with key `k`, reporting whether an
entry was removed. -/
def mapDelete (m : List (JStr × Book)) (k : JStr) : Bool × List (JStr × Book) :=
  match m with
  | [] => (false, [])
  | (k2, v) :: rest =>
      if k2 = k then (true, rest)
      else
        let r := mapDelete rest k
        (r.1, (k2, v) :: r.2)

/-- `BookService` from `src/BookService.ts`: the private `books` map. -/
structure BookService where
  books : List (JStr × Book)
deriving DecidableEq

/-- A fresh `new BookService()`: empty map. -/
def BookService.empty : BookService := ⟨[]⟩

/-- `BookService.create`: validate, build the book from the generated id and the
sanitized fields, insert it, return it (the returned spread copy is equal as a
value). `cy` is the current calendar year, `newId` the id produced by
`generateId`. -/
def BookService.create (cy : Int) (newId : JStr) (data : CreateBookData)
    (s : BookService) : Except JsError (Book × BookService) :=
  match validateCreateBookData cy data with
  | some e => .error e
  | none =>
    let book : Book :=
      { id := newId
        title := sanitizeString data.title
        author := sanitizeString data.author
        year := data.year }
    .ok (book, ⟨mapSet s.books book.id book⟩)

/-- `BookService.safeCreate`: wrap `create` into a `Result`. -/
def BookService.safeCreate (cy : Int) (newId : JStr) (data : CreateBookData)
    (s : BookService) : Result Book × BookService :=
  match BookService.create cy newId data s with
  | .error e => (.failure e, s)
  | .ok (b, s2) => (.success b, s2)

/-- `BookService.findById`: a copy of the stored book, or `null`. -/
def BookService.findById (id : JStr) (s : BookService) : Option Book :=
  mapGet s.books id

/-- `BookService.findAll`: copies of all stored books in insertion order. -/
def BookService.findAll (s : BookService) : List Book :=
  s.books.map (fun p => p.2)

/-- `BookService.findByAuthor`: lower-case and trim the query, then filter
`findAll` by case-insensitive substring containment in the author field. -/
def BookService.findByAuthor (author : JStr) (s : BookService) : List Book :=
  let normalizedAuthor := jsTrim (jsToLower author)
  (BookService.findAll s).filter (fun b => jsIncludes (jsToLower b.author) normalizedAuthor)

/-- `BookService.findByTitle`: same as `findByAuthor`, against the title field. -/
def BookService.findByTitle (title : JStr) (s : BookService) : List Book :=
  let normalizedTitle := jsTrim (jsToLower title)
  (BookService.findAll s).filter (fun b => jsIncludes (jsToLower b.title) normalizedTitle)

/-- `BookService.findByYear`: exact-equality filter. -/
def BookService.findByYear (year : Int) (s : BookService) : List Book :=
  (BookService.findAll s).filter (fun b => decide (b.year = year))

/-- The `updatedBook` object literal of `BookService.update`, the merge of the
supplied fields into the existing record. The merge keeps the JavaScript
truthiness test on the supplied strings
(`data.title ? sanitizeString(data.title) : existingBook.title`): an empty
supplied string would fall back to the old value, while `year` is merged under
the explicit `!== undefined` test. -/
def updatedBookOf (existingBook : Book) (data : UpdateBookData) : Book :=
  { id := existingBook.id
    title :=
      match data.title with
      | some t => if t.isEmpty then existingBook.title else sanitizeString t
      | none => existingBook.title
    author :=
      match data.author with
      | some a => if a.isEmpty then existingBook.author else sanitizeString a
      | none => existingBook.author
    year :=
      match data.year with
      | some y => y
      | none => existingBook.year }

/-- `BookService.update`: validate first, then look the id up (`null` when
absent), then store and return the merged record. -/
def BookService.update (cy : Int) (id : JStr) (data : UpdateBookData)
    (s : BookService) : Except JsError (Option Book × BookService) :=
  match validateUpdateBookData cy data with
  | some e => .error e
  | none =>
    match mapGet s.books id with
    | none => .ok (none, s)
    | some existingBook =>
      let updatedBook : Book := updatedBookOf existingBook data
      .ok (some updatedBook, ⟨mapSet s.books id updatedBook⟩)

/-- `BookService.safeUpdate`: wrap `update` into a `Result`, turning the `null`
not-found outcome into a `BookNotFoundError` built from the id. -/
def BookService.safeUpdate (cy : Int) (id : JStr) (data : UpdateBookData)
    (s : BookService) : Result Book × BookService :=
  match BookService.update cy id data s with
  | .error e => (.failure e, s)
  | .ok (none, s2) => (.failure (.bookNotFoundError id), s2)
  | .ok (some b, s2) => (.success b, s2)

/-- `BookService.delete`: `Map.delete`, reporting whether a removal occurred. -/
def BookService.delete (id : JStr) (s : BookService) : Bool × BookService :=
  let r := mapDelete s.books id
  (r.1, ⟨r.2⟩)

/-- `BookService.safeDelete`: raise `BookNotFoundError` when `delete` reports
no removal. -/
def BookService.safeDelete (id : JStr) (s : BookService) : Except JsError BookService :=
  let r := BookService.delete id s
  if r.1 then .ok r.2 else .error (.bookNotFoundError id)

/-- `BookService.count`. -/
def BookService.count (s : BookService) : Int :=
  (s.books.length : Int)

/-- `BookService.clear`. -/
def BookService.clear (_s : BookService) : BookService :=
  ⟨[]⟩

/-- `BookService.isEmpty`. -/
def BookService.isEmpty (s : BookService) : Bool :=
  decide (s.books.length = 0)

/-- `Array.prototype.slice(start, stop)` for non-negative indices (the only way
`getPaginated` calls it when `pageSize` is positive). -/
def jsSlice (start stop : Int) (l : List α) : List α :=
  (l.take stop.toNat).drop start.toNat

/-- The pagination record returned by `getPaginated`. -/
structure PaginatedBooks where
  books : List Book
  totalBooks : Int
  totalPages : Int
  currentPage : Int
  hasNextPage : Bool
  hasPreviousPage : Bool
deriving DecidableEq

/-- `BookService.getPaginated`. `Math.ceil(totalBooks / pageSize)` is modelled
as `(totalBooks + pageSize - 1) / pageSize` (Euclidean division), which agrees
with the ceiling whenever `pageSize` is positive; for `pageSize ≤ 0` the
JavaScript expression produces non-finite numbers outside the `Int` embedding. -/
def BookService.getPaginated (page pageSize : Int) (s : BookService) : PaginatedBooks :=
  let totalBooks : Int := BookService.count s
  let totalPages : Int := (totalBooks + pageSize - 1) / pageSize
  let currentPage : Int := max 1 (min page totalPages)
  let startIndex : Int := (currentPage - 1) * pageSize
  let endIndex : Int := startIndex + pageSize
  let allBooks := BookService.findAll s
  { books := jsSlice startIndex endIndex allBooks
    totalBooks := totalBooks
    totalPages := totalPages
    currentPage := currentPage
    hasNextPage := decide (currentPage < totalPages)
    hasPreviousPage := decide (1 < currentPage) }

/-- One call of the mutating store interface, for reasoning about operation
sequences. A create carries the id handed out by `generateId`; every operation
carries the calendar year `cy` observed during that call (paired with it in
`runOps`). -/
inductive Operation where
  | createOp (newId : JStr) (data : CreateBookData)
  | updateOp (id : JStr) (data : UpdateBookData)
  | deleteOp (id : JStr)
  | clearOp

/-- Apply one operation to the store: a raised `ValidationError` leaves the
store unchanged, exactly as an exception thrown before any mutation does. -/
def applyOp (cy : Int) (op : Operation) (s : BookService) : BookService :=
  match op with
  | .createOp newId data =>
      match BookService.create cy newId data s with
      | .ok r => r.2
      | .error _ => s
  | .updateOp id data =>
      match BookService.update cy id data s with
      | .ok r => r.2
      | .error _ => s
  | .deleteOp id => (BookService.delete id s).2
  | .clearOp => BookService.clear s

/-- Run a sequence of operations, each tagged with the calendar year observed
during that call, starting from a fresh empty service. -/
def runOps (ops : List (Int × Operation)) : BookService :=
  ops.foldl (fun s p => applyOp p.1 p.2 s) BookService.empty

/-! ### Helper lemmas about the string model -/

/-- `Char.ofNat` is the identity on codepoints below 128. -/
theorem charOfNat_toNat : ∀ n : Nat, n < 128 → (Char.ofNat n).toNat = n := by
  decide

/-- Lowering a character does not change whether it is whitespace. -/
theorem jsWhitespaceChar_jsLowerChar (c : Char) :
    jsWhitespaceChar (jsLowerChar c) = jsWhitespaceChar c := by
  unfold jsLowerChar jsWhitespaceChar
  split
  · rename_i h
    rw [charOfNat_toNat (c.toNat + 32) (by omega), decide_eq_decide]
    omega
  · rfl

/-- Trimming commutes with lowering. -/
theorem jsTrim_jsToLower (l : JStr) : jsTrim (jsToLower l) = jsToLower (jsTrim l) := by
  unfold jsTrim jsToLower
  have hpf : (jsWhitespaceChar ∘ jsLowerChar) = jsWhitespaceChar :=
    funext fun c => jsWhitespaceChar_jsLowerChar c
  rw [List.dropWhile_map, hpf, ← List.map_reverse, List.dropWhile_map, hpf, ← List.map_reverse]

/-- Trimming yields the empty string exactly when every character is whitespace. -/
theorem jsTrim_eq_nil_iff (l : JStr) :
    jsTrim l = [] ↔ ∀ c ∈ l, jsWhitespaceChar c = true := by
  unfold jsTrim
  rw [List.reverse_eq_nil_iff, List.dropWhile_eq_nil_iff]
  constructor
  · intro h c hc
    have hsplit := @List.takeWhile_append_dropWhile _ jsWhitespaceChar l
    rw [← hsplit] at hc
    rcases List.mem_append.1 hc with h1 | h2
    · exact List.mem_takeWhile_imp h1
    · exact h c (List.mem_reverse.2 h2)
  · intro h c hc
    exact h c ((List.dropWhile_sublist _).subset (List.mem_reverse.1 hc))

/-- A non-whitespace character survives `dropWhile jsWhitespaceChar`. -/
theorem mem_dropWhile_of_not_white (c : Char) (hw : jsWhitespaceChar c = false) :
    ∀ l : JStr, c ∈ l → c ∈ l.dropWhile jsWhitespaceChar := by
  intro l
  induction l with
  | nil => intro h; exact absurd h (List.not_mem_nil c)
  | cons a t ih =>
    intro hc
    by_cases h : jsWhitespaceChar a
    · rw [List.dropWhile_cons_of_pos h]
      rcases List.mem_cons.1 hc with rfl | hm
      · rw [hw] at h; exact absurd h (by simp)
      · exact ih hm
    · rw [List.dropWhile_cons_of_neg h]
      exact hc

/-- A non-whitespace character survives trimming. -/
theorem mem_jsTrim_of_not_white (c : Char) (l : JStr) (hc : c ∈ l)
    (hw : jsWhitespaceChar c = false) : c ∈ jsTrim l := by
  unfold jsTrim
  apply List.mem_reverse.2
  apply mem_dropWhile_of_not_white c hw
  apply List.mem_reverse.2
  exact mem_dropWhile_of_not_white c hw l hc

/-- Trimming an already nonblank string leaves it nonblank. -/
theorem jsTrim_jsTrim_ne_nil (l : JStr) (h : jsTrim l ≠ []) : jsTrim (jsTrim l) ≠ [] := by
  intro h2
  apply h
  rw [jsTrim_eq_nil_iff] at h2 ⊢
  intro c hc
  cases hwc : jsWhitespaceChar c with
  | true => rfl
  | false => exact absurd (h2 c (mem_jsTrim_of_not_white c l hc hwc)) (by simp [hwc])

/-- A string with a nonblank trim is itself nonempty. -/
theorem ne_nil_of_jsTrim_ne_nil (l : JStr) (h : jsTrim l ≠ []) : l ≠ [] := by
  intro h2
  subst h2
  exact h rfl

/-- `jsIncludes` decides substring containment. -/
theorem jsIncludes_iff_substring (hay needle : JStr) :
    jsIncludes hay needle = true ↔ needle <:+: hay := by
  induction hay with
  | nil =>
    simp [jsIncludes, List.isEmpty_iff]
  | cons c t ih =>
    simp [jsIncludes, Bool.or_eq_true, ih, List.isPrefixOf_iff_prefix, List.infix_cons_iff]

/-! ### Helper lemmas about the map model -/

/-- Lookup after `mapSet`. -/
theorem mapGet_mapSet (m : List (JStr × Book)) (k k2 : JStr) (v : Book) :
    mapGet (mapSet m k v) k2 = if k = k2 then some v else mapGet m k2 := by
  induction m with
  | nil => simp [mapSet, mapGet]
  | cons p rest ih =>
    obtain ⟨k3, v3⟩ := p
    by_cases h1 : k3 = k
    · subst h1
      by_cases h2 : k3 = k2 <;> simp [mapSet, mapGet, h2]
    · by_cases h2 : k3 = k2
      · subst h2
        have hk : ¬ k = k3 := fun hx => h1 hx.symm
        simp [mapSet, mapGet, h1, hk]
      · simp [mapSet, mapGet, h1, h2, ih]

/-- A successful lookup is a membership. -/
theorem mem_of_mapGet_eq_some (m : List (JStr × Book)) (k : JStr) (b : Book)
    (h : mapGet m k = some b) : (k, b) ∈ m := by
  induction m with
  | nil => simp [mapGet] at h
  | cons p rest ih =>
    obtain ⟨k2, v⟩ := p
    by_cases h2 : k2 = k
    · subst h2
      simp [mapGet] at h
      simp [h]
    · simp [mapGet, h2] at h
      exact List.mem_cons_of_mem _ (ih h)

/-- Every entry after `mapSet` is an old entry or the written one. -/
theorem mem_mapSet (m : List (JStr × Book)) (k : JStr) (v : Book) (p : JStr × Book)
    (h : p ∈ mapSet m k v) : p ∈ m ∨ p = (k, v) := by
  induction m with
  | nil => simp [mapSet] at h; simp [h]
  | cons q rest ih =>
    obtain ⟨k2, v2⟩ := q
    by_cases h2 : k2 = k
    · subst h2
      simp [mapSet] at h
      rcases h with rfl | hm
      · right; rfl
      · left; exact List.mem_cons_of_mem _ hm
    · simp [mapSet, h2] at h
      rcases h with rfl | hm
      · left; exact List.mem_cons_self _ _
      · rcases ih hm with hold | hnew
        · left; exact List.mem_cons_of_mem _ hold
        · right; exact hnew

/-- Every entry after `mapDelete` is an old entry. -/
theorem mem_mapDelete (m : List (JStr × Book)) (k : JStr) (p : JStr × Book)
    (h : p ∈ (mapDelete m k).2) : p ∈ m := by
  induction m with
  | nil => simp [mapDelete] at h
  | cons q rest ih =>
    obtain ⟨k2, v2⟩ := q
    by_cases h2 : k2 = k
    · subst h2
      simp [mapDelete] at h
      exact List.mem_cons_of_mem _ h
    · simp [mapDelete, h2] at h
      rcases h with rfl | hm
      · exact List.mem_cons_self _ _
      · exact List.mem_cons_of_mem _ (ih hm)

/-- `mapDelete` does not touch other keys. -/
theorem mapGet_mapDelete_ne (m : List (JStr × Book)) (k k2 : JStr) (h : k2 ≠ k) :
    mapGet (mapDelete m k).2 k2 = mapGet m k2 := by
  induction m with
  | nil => simp [mapDelete]
  | cons q rest ih =>
    obtain ⟨k3, v3⟩ := q
    by_cases h3 : k3 = k
    · subst h3
      have hne : ¬ k3 = k2 := fun hx => h hx.symm
      simp [mapDelete, mapGet, hne]
    · by_cases h4 : k3 = k2
      · subst h4
        simp [mapDelete, mapGet, h3]
      · simp [mapDelete, mapGet, h3, h4, ih]

/-- `mapSet` on a fresh key appends the new entry. -/
theorem mapSet_fresh (m : List (JStr × Book)) (k : JStr) (v : Book)
    (h : mapGet m k = none) : mapSet m k v = m ++ [(k, v)] := by
  induction m with
  | nil => simp [mapSet]
  | cons q rest ih =>
    obtain ⟨k2, v2⟩ := q
    by_cases h2 : k2 = k
    · subst h2; simp [mapGet] at h
    · simp [mapGet, h2] at h
      simp [mapSet, h2, ih h]

/-! ### Inversion lemmas for the validators -/

/-- `validateCreateBookData` passes exactly when both strings are nonblank after
trimming and the year lies in `[0, cy]`. -/
theorem validateCreateBookData_eq_none_iff (cy : Int) (d : CreateBookData) :
    validateCreateBookData cy d = none ↔
      jsTrim d.title ≠ [] ∧ jsTrim d.author ≠ [] ∧ 0 ≤ d.year ∧ d.year ≤ cy := by
  unfold validateCreateBookData
  split_ifs with h1 h2 h3
  all_goals simp_all [List.isEmpty_iff]
  all_goals omega

/-- `validateUpdateBookData` passes exactly when some field is supplied and
every supplied field passes its per-field rule. -/
theorem validateUpdateBookData_eq_none_iff (cy : Int) (d : UpdateBookData) :
    validateUpdateBookData cy d = none ↔
      ¬ (d.title = none ∧ d.author = none ∧ d.year = none) ∧
      (∀ t, d.title = some t → jsTrim t ≠ []) ∧
      (∀ a, d.author = some a → jsTrim a ≠ []) ∧
      (∀ y, d.year = some y → 0 ≤ y ∧ y ≤ cy) := by
  obtain ⟨t, a, y⟩ := d
  cases t <;> cases a <;> cases y <;>
    simp [validateUpdateBookData, checkUpdateTitle, checkUpdateAuthor, checkUpdateYear,
      List.isEmpty_iff] <;>
    split_ifs <;> simp_all <;> omega

/-- Any error produced by the title check is a `ValidationError`. -/
theorem checkUpdateTitle_some (o : Option JStr) (e : JsError)
    (h : checkUpdateTitle o = some e) : ∃ msg, e = JsError.validationError msg := by
  cases o with
  | none => simp [checkUpdateTitle] at h
  | some t =>
    simp only [checkUpdateTitle] at h
    split_ifs at h
    exact ⟨_, (Option.some.inj h).symm⟩

/-- Any error produced by the author check is a `ValidationError`. -/
theorem checkUpdateAuthor_some (o : Option JStr) (e : JsError)
    (h : checkUpdateAuthor o = some e) : ∃ msg, e = JsError.validationError msg := by
  cases o with
  | none => simp [checkUpdateAuthor] at h
  | some a =>
    simp only [checkUpdateAuthor] at h
    split_ifs at h
    exact ⟨_, (Option.some.inj h).symm⟩

/-- Any error produced by the year check is a `ValidationError`. -/
theorem checkUpdateYear_some (cy : Int) (o : Option Int) (e : JsError)
    (h : checkUpdateYear cy o = some e) : ∃ msg, e = JsError.validationError msg := by
  cases o with
  | none => simp [checkUpdateYear] at h
  | some y =>
    simp only [checkUpdateYear] at h
    split_ifs at h
    exact ⟨_, (Option.some.inj h).symm⟩

/-- Any error produced by `validateUpdateBookData` is a `ValidationError`. -/
theorem validateUpdateBookData_eq_some_validationError (cy : Int) (d : UpdateBookData)
    (e : JsError) (h : validateUpdateBookData cy d = some e) :
    ∃ msg, e = JsError.validationError msg := by
  unfold validateUpdateBookData at h
  split_ifs at h
  · exact ⟨_, (Option.some.inj h).symm⟩
  · cases ht : checkUpdateTitle d.title with
    | some e1 =>
      rw [ht] at h
      have he : e1 = e := Option.some.inj h
      obtain ⟨msg, hm⟩ := checkUpdateTitle_some _ _ ht
      exact ⟨msg, he ▸ hm⟩
    | none =>
      rw [ht] at h
      cases ha : checkUpdateAuthor d.author with
      | some e2 =>
        rw [ha] at h
        have he : e2 = e := Option.some.inj h
        obtain ⟨msg, hm⟩ := checkUpdateAuthor_some _ _ ha
        exact ⟨msg, he ▸ hm⟩
      | none =>
        rw [ha] at h
        have h2 : checkUpdateYear cy d.year = some e := h
        exact checkUpdateYear_some cy _ _ h2

/-! ### Last-write instrumentation for the store invariant

To state the invariant exactly — the year bound holds against the calendar year
observed by the operation that last wrote the record — the run is replayed by a
ghost-instrumented semantics that additionally stamps every written entry with
the clock of the writing operation. `trackedErase_applyOpTracked` proves the
instrumented semantics mirrors `applyOp` step for step, so the stamp of an
entry of the instrumented run is precisely the clock at that record's last
write in the real run. -/

/-- The store together with, for each entry, the clock (current calendar year)
of the operation that last wrote it. -/
structure TrackedService where
  books : List (JStr × Book × Int)

/-- `Map.prototype.get` on the instrumented store. -/
def trackedGet (m : List (JStr × Book × Int)) (k : JStr) : Option (Book × Int) :=
  match m with
  | [] => none
  | (k2, v) :: rest => if k2 = k then some v else trackedGet rest k

/-- `Map.prototype.set` on the instrumented store. -/
def trackedSet (m : List (JStr × Book × Int)) (k : JStr) (v : Book × Int) :
    List (JStr × Book × Int) :=
  match m with
  | [] => [(k, v)]
  | (k2, v2) :: rest =>
      if k2 = k then (k, v) :: rest else (k2, v2) :: trackedSet rest k v

/-- `Map.prototype.delete` on the instrumented store. -/
def trackedDelete (m : List (JStr × Book × Int)) (k : JStr) :
    Bool × List (JStr × Book × Int) :=
  match m with
  | [] => (false, [])
  | (k2, v) :: rest =>
      if k2 = k then (true, rest)
      else
        let r := trackedDelete rest k
        (r.1, (k2, v) :: r.2)

/-- Forget the last-write clocks, recovering the real store. -/
def trackedErase (t : TrackedService) : BookService :=
  ⟨t.books.map (fun p => (p.1, p.2.1))⟩

/-- The instrumented step: identical to `applyOp`, with every written entry
stamped by the clock `cy` of the writing operation. -/
def applyOpTracked (cy : Int) (op : Operation) (t : TrackedService) : TrackedService :=
  match op with
  | .createOp newId data =>
      match validateCreateBookData cy data with
      | some _ => t
      | none =>
          ⟨trackedSet t.books newId
            ({ id := newId, title := sanitizeString data.title,
               author := sanitizeString data.author, year := data.year }, cy)⟩
  | .updateOp id data =>
      match validateUpdateBookData cy data with
      | some _ => t
      | none =>
        match trackedGet t.books id with
        | none => t
        | some ex => ⟨trackedSet t.books id (updatedBookOf ex.1 data, cy)⟩
  | .deleteOp id => ⟨(trackedDelete t.books id).2⟩
  | .clearOp => ⟨[]⟩

/-- Run the instrumented semantics from the empty store. -/
def runOpsTracked (ops : List (Int × Operation)) : TrackedService :=
  ops.foldl (fun t p => applyOpTracked p.1 p.2 t) ⟨[]⟩

/-- Erasing the stamps commutes with lookup. -/
theorem mapGet_map_eraseEntry (m : List (JStr × Book × Int)) (k : JStr) :
    mapGet (m.map (fun p => (p.1, p.2.1))) k = Option.map Prod.fst (trackedGet m k) := by
  induction m with
  | nil => rfl
  | cons p rest ih =>
    obtain ⟨k2, v⟩ := p
    by_cases h : k2 = k <;> simp [mapGet, trackedGet, h, ih]

/-- Erasing the stamps commutes with `Map.set`. -/
theorem map_eraseEntry_trackedSet (m : List (JStr × Book × Int)) (k : JStr)
    (b : Book) (w : Int) :
    (trackedSet m k (b, w)).map (fun p => (p.1, p.2.1))
      = mapSet (m.map (fun p => (p.1, p.2.1))) k b := by
  induction m with
  | nil => rfl
  | cons p rest ih =>
    obtain ⟨k2, v⟩ := p
    by_cases h : k2 = k <;> simp [mapSet, trackedSet, h, ih]

/-- Erasing the stamps commutes with `Map.delete`. -/
theorem map_eraseEntry_trackedDelete (m : List (JStr × Book × Int)) (k : JStr) :
    ((trackedDelete m k).2).map (fun p => (p.1, p.2.1))
      = (mapDelete (m.map (fun p => (p.1, p.2.1))) k).2 := by
  induction m with
  | nil => rfl
  | cons p rest ih =>
    obtain ⟨k2, v⟩ := p
    by_cases h : k2 = k <;> simp [mapDelete, trackedDelete, h, ih]

/-- The instrumented semantics mirrors the real one: erasing the stamps after an
instrumented step is the real step on the erased store. -/
theorem trackedErase_applyOpTracked (cy : Int) (op : Operation) (t : TrackedService) :
    trackedErase (applyOpTracked cy op t) = applyOp cy op (trackedErase t) := by
  cases op with
  | clearOp => rfl
  | deleteOp id =>
    simp [applyOpTracked, applyOp, BookService.delete, BookService.clear, trackedErase,
      map_eraseEntry_trackedDelete]
  | createOp newId data =>
    cases hv : validateCreateBookData cy data with
    | some e => simp [applyOpTracked, applyOp, BookService.create, hv, trackedErase]
    | none =>
      simp [applyOpTracked, applyOp, BookService.create, hv, trackedErase,
        map_eraseEntry_trackedSet]
  | updateOp id data =>
    cases hv : validateUpdateBookData cy data with
    | some e => simp [applyOpTracked, applyOp, BookService.update, hv, trackedErase]
    | none =>
      cases hg : trackedGet t.books id with
      | none =>
        have hg2 : mapGet (t.books.map (fun p => (p.1, p.2.1))) id = none := by
          rw [mapGet_map_eraseEntry, hg]
          rfl
        simp [applyOpTracked, applyOp, BookService.update, hv, hg, hg2, trackedErase]
      | some ex =>
        have hg2 : mapGet (t.books.map (fun p => (p.1, p.2.1))) id = some ex.1 := by
          rw [mapGet_map_eraseEntry, hg]
          rfl
        simp [applyOpTracked, applyOp, BookService.update, hv, hg, hg2, trackedErase,
          map_eraseEntry_trackedSet]

/-- Run-level erasure: the instrumented run replays exactly the real run. -/
theorem trackedErase_runOps_aux (ops : List (Int × Operation)) :
    ∀ t : TrackedService,
      trackedErase (ops.foldl (fun t2 p => applyOpTracked p.1 p.2 t2) t)
        = ops.foldl (fun s p => applyOp p.1 p.2 s) (trackedErase t) := by
  induction ops with
  | nil => intro t; rfl
  | cons q rest ih =>
    intro t
    simp only [List.foldl_cons]
    rw [ih, trackedErase_applyOpTracked]

/-- The instrumented run erases to the real run. -/
theorem trackedErase_runOpsTracked (ops : List (Int × Operation)) :
    trackedErase (runOpsTracked ops) = runOps ops := by
  unfold runOpsTracked runOps
  rw [trackedErase_runOps_aux]
  rfl

/-- A stamped lookup is a membership. -/
theorem mem_of_trackedGet_eq_some (m : List (JStr × Book × Int)) (k : JStr)
    (v : Book × Int) (h : trackedGet m k = some v) : (k, v) ∈ m := by
  induction m with
  | nil => simp [trackedGet] at h
  | cons p rest ih =>
    obtain ⟨k2, v2⟩ := p
    by_cases h2 : k2 = k
    · subst h2
      simp [trackedGet] at h
      simp [h]
    · simp [trackedGet, h2] at h
      exact List.mem_cons_of_mem _ (ih h)

/-- Every entry after a stamped `Map.set` is an old entry or the written one. -/
theorem mem_trackedSet (m : List (JStr × Book × Int)) (k : JStr) (v : Book × Int)
    (p : JStr × Book × Int) (h : p ∈ trackedSet m k v) : p ∈ m ∨ p = (k, v) := by
  induction m with
  | nil => simp [trackedSet] at h; simp [h]
  | cons q rest ih =>
    obtain ⟨k2, v2⟩ := q
    by_cases h2 : k2 = k
    · subst h2
      simp [trackedSet] at h
      rcases h with rfl | hm
      · right; rfl
      · left; exact List.mem_cons_of_mem _ hm
    · simp [trackedSet, h2] at h
      rcases h with rfl | hm
      · left; exact List.mem_cons_self _ _
      · rcases ih hm with hold | hnew
        · left; exact List.mem_cons_of_mem _ hold
        · right; exact hnew

/-- Every entry after a stamped `Map.delete` is an old entry. -/
theorem mem_trackedDelete (m : List (JStr × Book × Int)) (k : JStr)
    (p : JStr × Book × Int) (h : p ∈ (trackedDelete m k).2) : p ∈ m := by
  induction m with
  | nil => simp [trackedDelete] at h
  | cons q rest ih =>
    obtain ⟨k2, v2⟩ := q
    by_cases h2 : k2 = k
    · subst h2
      simp [trackedDelete] at h
      exact List.mem_cons_of_mem _ h
    · simp [trackedDelete, h2] at h
      rcases h with rfl | hm
      · exact List.mem_cons_self _ _
      · exact List.mem_cons_of_mem _ (ih hm)

/-- The instrumented invariant: nonblank trimmed strings, a nonnegative year,
the year bounded by the recorded last-write clock, and that clock among the
executed ones. -/
def TrackedGood (cys : List Int) (p : JStr × Book × Int) : Prop :=
  jsTrim p.2.1.title ≠ [] ∧ jsTrim p.2.1.author ≠ [] ∧ 0 ≤ p.2.1.year ∧
  p.2.1.year ≤ p.2.2 ∧ p.2.2 ∈ cys

/-- One instrumented operation preserves the invariant when its clock `cy` is at
least the bound `hi` on all stamps so far (calendar time is nondecreasing):
untouched entries keep their stamps, and a written entry receives stamp `cy`,
whose bound on the year holds because a supplied year was validated against
`cy` and an inherited year was bounded by the older stamp, itself at most `cy`. -/
theorem applyOpTracked_good (cy : Int) (op : Operation) (t : TrackedService)
    (cys : List Int) (hi : Int) (hhi : hi ≤ cy)
    (hinv : ∀ p ∈ t.books, TrackedGood cys p ∧ p.2.2 ≤ hi) :
    ∀ p ∈ (applyOpTracked cy op t).books, TrackedGood (cys ++ [cy]) p ∧ p.2.2 ≤ cy := by
  have hcy : cy ∈ cys ++ [cy] := List.mem_append.2 (Or.inr (List.mem_singleton.2 rfl))
  have mono : ∀ p ∈ t.books, TrackedGood (cys ++ [cy]) p ∧ p.2.2 ≤ cy := by
    intro p hp
    obtain ⟨⟨h1, h2, h3, h4, h5⟩, h6⟩ := hinv p hp
    exact ⟨⟨h1, h2, h3, h4, List.mem_append.2 (Or.inl h5)⟩, le_trans h6 hhi⟩
  intro p hp
  cases op with
  | clearOp => simp [applyOpTracked] at hp
  | deleteOp id =>
    simp only [applyOpTracked] at hp
    exact mono _ (mem_trackedDelete _ _ _ hp)
  | createOp newId data =>
    cases hv : validateCreateBookData cy data with
    | some e =>
      simp only [applyOpTracked, hv] at hp
      exact mono _ hp
    | none =>
      simp only [applyOpTracked, hv] at hp
      rcases mem_trackedSet _ _ _ _ hp with hold | hnew
      · exact mono _ hold
      · obtain ⟨ht, ha, hy0, hycy⟩ := (validateCreateBookData_eq_none_iff cy data).1 hv
        subst hnew
        exact ⟨⟨jsTrim_jsTrim_ne_nil _ ht, jsTrim_jsTrim_ne_nil _ ha, hy0, hycy, hcy⟩,
          le_refl cy⟩
  | updateOp id data =>
    cases hv : validateUpdateBookData cy data with
    | some e =>
      simp only [applyOpTracked, hv] at hp
      exact mono _ hp
    | none =>
      cases hg : trackedGet t.books id with
      | none =>
        simp only [applyOpTracked, hv, hg] at hp
        exact mono _ hp
      | some ex =>
        simp only [applyOpTracked, hv, hg] at hp
        rcases mem_trackedSet _ _ _ _ hp with hold | hnew
        · exact mono _ hold
        · obtain ⟨hne, hT, hA, hY⟩ := (validateUpdateBookData_eq_none_iff cy data).1 hv
          obtain ⟨⟨e1, e2, e3, e4, e5⟩, e6⟩ := hinv _ (mem_of_trackedGet_eq_some _ _ _ hg)
          subst hnew
          refine ⟨⟨?_, ?_, ?_, ?_, hcy⟩, le_refl cy⟩
          · cases hdt : data.title with
            | none => simpa [TrackedGood, updatedBookOf, hdt] using e1
            | some tt =>
              have htt := hT tt hdt
              have htne : tt.isEmpty = false :=
                List.isEmpty_eq_false.2 (ne_nil_of_jsTrim_ne_nil tt htt)
              simpa [updatedBookOf, hdt, htne, sanitizeString] using
                jsTrim_jsTrim_ne_nil tt htt
          · cases hda : data.author with
            | none => simpa [TrackedGood, updatedBookOf, hda] using e2
            | some aa =>
              have haa := hA aa hda
              have hane : aa.isEmpty = false :=
                List.isEmpty_eq_false.2 (ne_nil_of_jsTrim_ne_nil aa haa)
              simpa [updatedBookOf, hda, hane, sanitizeString] using
                jsTrim_jsTrim_ne_nil aa haa
          · cases hdy : data.year with
            | none => simpa [TrackedGood, updatedBookOf, hdy] using e3
            | some y => simpa [updatedBookOf, hdy] using (hY y hdy).1
          · cases hdy : data.year with
            | none =>
              have hold2 : ex.1.year ≤ cy := le_trans e4 (le_trans e6 hhi)
              simpa [updatedBookOf, hdy] using hold2
            | some y => simpa [updatedBookOf, hdy] using (hY y hdy).2

/-- Along a run with nondecreasing clocks, every stamped entry satisfies the
instrumented invariant. -/
theorem runOpsTracked_aux (ops : List (Int × Operation)) :
    ∀ (t : TrackedService) (cys : List Int) (hi : Int),
      List.Chain' (· ≤ ·) (ops.map Prod.fst) →
      (∀ c, (ops.map Prod.fst).head? = some c → hi ≤ c) →
      (∀ p ∈ t.books, TrackedGood cys p ∧ p.2.2 ≤ hi) →
      ∀ p ∈ (ops.foldl (fun t2 q => applyOpTracked q.1 q.2 t2) t).books,
        TrackedGood (cys ++ ops.map Prod.fst) p := by
  induction ops with
  | nil =>
    intro t cys hi _ _ hinv p hp
    simpa using (hinv p hp).1
  | cons q rest ih =>
    obtain ⟨c, op⟩ := q
    intro t cys hi hchain hhead hinv p hp
    have hchain2 : List.Chain' (· ≤ ·) (c :: rest.map Prod.fst) := by simpa using hchain
    have hhc : hi ≤ c := hhead c rfl
    have hstep := applyOpTracked_good c op t cys hi hhc hinv
    have hhead2 : ∀ c2, (rest.map Prod.fst).head? = some c2 → c ≤ c2 := by
      intro c2 hc2
      exact (List.chain'_cons'.1 hchain2).1 c2 hc2
    have h2 := ih (applyOpTracked c op t) (cys ++ [c]) c hchain2.tail hhead2 hstep p hp
    rw [List.append_assoc] at h2
    exact h2

/-! ### Success-shape lemmas for the operations -/

/-- A validated update against a stored id returns and stores the merged record. -/
theorem BookService.update_found (cy : Int) (id : JStr) (data : UpdateBookData)
    (s : BookService) (b : Book) (hv : validateUpdateBookData cy data = none)
    (hg : mapGet s.books id = some b) :
    BookService.update cy id data s =
      Except.ok (some (updatedBookOf b data), ⟨mapSet s.books id (updatedBookOf b data)⟩) := by
  unfold BookService.update
  rw [hv, hg]

/-- A validated update against an absent id returns the not-found result and
leaves the store unchanged. -/
theorem BookService.update_absent (cy : Int) (id : JStr) (data : UpdateBookData)
    (s : BookService) (hv : validateUpdateBookData cy data = none)
    (hg : mapGet s.books id = none) :
    BookService.update cy id data s = Except.ok (none, s) := by
  unfold BookService.update
  rw [hv, hg]

/-- A validated create inserts and returns the sanitized record. -/
theorem BookService.create_ok (cy : Int) (newId : JStr) (data : CreateBookData)
    (s : BookService) (hv : validateCreateBookData cy data = none) :
    BookService.create cy newId data s =
      Except.ok
        ({ id := newId, title := sanitizeString data.title,
           author := sanitizeString data.author, year := data.year },
         ⟨mapSet s.books newId
           { id := newId, title := sanitizeString data.title,
             author := sanitizeString data.author, year := data.year }⟩) := by
  unfold BookService.create
  rw [hv]

/-! ### The claims -/

/-- Claim C1: starting from the empty store, after any sequence of
create/update/delete/clear operations (each tagged with the calendar year it
observed, a nondecreasing sequence since calendar time does not go backwards),
every record held in the mapping has a title and an author that are non-empty
after trimming, and a year `y` with `0 ≤ y ≤ wcy`, where `wcy` is the clock at
the time of that record's last write: the stamp the instrumented run
`runOpsTracked` — which mirrors the real run by `trackedErase_runOpsTracked` —
recorded when it last wrote the entry, itself the clock of one of the executed
operations. -/
theorem C1_store_invariant (ops : List (Int × Operation)) (id : JStr) (b : Book)
    (hmono : List.Chain' (· ≤ ·) (ops.map Prod.fst))
    (h : mapGet (runOps ops).books id = some b) :
    jsTrim b.title ≠ [] ∧ jsTrim b.author ≠ [] ∧ 0 ≤ b.year ∧
    ∃ wcy, trackedGet (runOpsTracked ops).books id = some (b, wcy) ∧
      wcy ∈ ops.map Prod.fst ∧ b.year ≤ wcy := by
  rw [← trackedErase_runOpsTracked ops] at h
  have h2 : Option.map Prod.fst (trackedGet (runOpsTracked ops).books id) = some b := by
    rw [← mapGet_map_eraseEntry]
    exact h
  cases hg : trackedGet (runOpsTracked ops).books id with
  | none =>
    rw [hg] at h2
    exact Option.noConfusion h2
  | some pw =>
    obtain ⟨bk, wcy⟩ := pw
    rw [hg] at h2
    have hb : bk = b := Option.some.inj h2
    subst hb
    have hmem := mem_of_trackedGet_eq_some _ _ _ hg
    unfold runOpsTracked at hmem
    have hgood := runOpsTracked_aux ops ⟨[]⟩ [] ((ops.map Prod.fst).head?.getD 0)
      hmono (by intro c hc; simp [hc]) (by simp) _ hmem
    obtain ⟨g1, g2, g3, g4, g5⟩ := hgood
    exact ⟨g1, g2, g3, wcy, rfl, by simpa using g5, g4⟩

/-- Witness for C1 at a concrete run: one create with clock 2025; the record's
last write is that create, stamped 2025. -/
theorem C1_store_invariant_witness :
    List.Chain' (· ≤ ·) ([(2025, Operation.createOp "id1".toList
        ⟨" The Title ".toList, "An Author".toList, 2000⟩)].map Prod.fst) ∧
    mapGet (runOps [(2025, Operation.createOp "id1".toList
        ⟨" The Title ".toList, "An Author".toList, 2000⟩)]).books "id1".toList
      = some ⟨"id1".toList, "The Title".toList, "An Author".toList, 2000⟩ ∧
    (jsTrim (Book.mk "id1".toList "The Title".toList "An Author".toList 2000).title ≠ [] ∧
     jsTrim (Book.mk "id1".toList "The Title".toList "An Author".toList 2000).author ≠ [] ∧
     0 ≤ (Book.mk "id1".toList "The Title".toList "An Author".toList 2000).year ∧
     ∃ wcy, trackedGet (runOpsTracked [(2025, Operation.createOp "id1".toList
          ⟨" The Title ".toList, "An Author".toList, 2000⟩)]).books "id1".toList
        = some (⟨"id1".toList, "The Title".toList, "An Author".toList, 2000⟩, wcy) ∧
       wcy ∈ ([(2025, Operation.createOp "id1".toList
          ⟨" The Title ".toList, "An Author".toList, 2000⟩)].map Prod.fst) ∧
       (Book.mk "id1".toList "The Title".toList "An Author".toList 2000).year ≤ wcy) :=
  ⟨by simp, by decide,
   C1_store_invariant
     [(2025, Operation.createOp "id1".toList ⟨" The Title ".toList, "An Author".toList, 2000⟩)]
     "id1".toList
     ⟨"id1".toList, "The Title".toList, "An Author".toList, 2000⟩
     (by simp) (by decide)⟩

/-- Claim C2: an update request that fails validation makes `update` raise
exactly that `ValidationError` for every identifier — also for identifiers
absent from the store — and never produce the not-found (or any non-raising)
result: the existence of the id is only checked after validation succeeds. -/
theorem C2_update_validation_precedence (cy : Int) (id : JStr) (data : UpdateBookData)
    (s : BookService) (e : JsError) (hv : validateUpdateBookData cy data = some e) :
    BookService.update cy id data s = Except.error e ∧
    (∃ msg, e = JsError.validationError msg) ∧
    ∀ r, BookService.update cy id data s ≠ Except.ok r := by
  have hupd : BookService.update cy id data s = Except.error e := by
    unfold BookService.update
    rw [hv]
  refine ⟨hupd, validateUpdateBookData_eq_some_validationError cy data e hv, ?_⟩
  intro r hr
  rw [hupd] at hr
  exact Except.noConfusion hr

/-- Witness for C2: the empty update request against an id absent from an empty
store raises the validation error, not the not-found result. -/
theorem C2_update_validation_precedence_witness :
    validateUpdateBookData 2025 ⟨none, none, none⟩
      = some (JsError.validationError "At least one field must be provided for update") ∧
    (BookService.update 2025 "nope".toList ⟨none, none, none⟩ BookService.empty
        = Except.error (JsError.validationError "At least one field must be provided for update") ∧
     (∃ msg, JsError.validationError "At least one field must be provided for update"
        = JsError.validationError msg) ∧
     ∀ r, BookService.update 2025 "nope".toList ⟨none, none, none⟩ BookService.empty
        ≠ Except.ok r) :=
  ⟨by decide,
   C2_update_validation_precedence 2025 "nope".toList ⟨none, none, none⟩ BookService.empty
     (JsError.validationError "At least one field must be provided for update") (by decide)⟩

/-- Claim C3: year boundary. With `cy` the current calendar year: a creation
request with nonblank title and author passes validation iff `0 ≤ year ≤ cy`
(so `0` and `cy` succeed while `-1` and `cy + 1` raise `ValidationError`), and
an update request supplying a year against a stored identifier — its other
supplied fields valid — succeeds iff `0 ≤ y ≤ cy`. Integrality of the year is
built into the `Int` embedding, which models the `Number.isInteger` check. -/
theorem C3_year_boundary (cy : Int) :
    (∀ d : CreateBookData, jsTrim d.title ≠ [] → jsTrim d.author ≠ [] →
      (validateCreateBookData cy d = none ↔ 0 ≤ d.year ∧ d.year ≤ cy)) ∧
    (∀ (s : BookService) (id : JStr) (b : Book) (d : UpdateBookData) (y : Int),
      mapGet s.books id = some b → d.year = some y →
      (∀ t, d.title = some t → jsTrim t ≠ []) →
      (∀ a, d.author = some a → jsTrim a ≠ []) →
      ((∃ b2 s2, BookService.update cy id d s = Except.ok (some b2, s2)) ↔
        0 ≤ y ∧ y ≤ cy)) := by
  constructor
  · intro d h1 h2
    rw [validateCreateBookData_eq_none_iff]
    simp [h1, h2]
  · intro s id b d y hg hy hT hA
    constructor
    · rintro ⟨b2, s2, hok⟩
      cases hv : validateUpdateBookData cy d with
      | some e =>
        have herr : BookService.update cy id d s = Except.error e := by
          unfold BookService.update
          rw [hv]
        rw [herr] at hok
        exact Except.noConfusion hok
      | none =>
        obtain ⟨-, -, -, hY⟩ := (validateUpdateBookData_eq_none_iff cy d).1 hv
        exact hY y hy
    · rintro ⟨hy0, hycy⟩
      have hv : validateUpdateBookData cy d = none := by
        rw [validateUpdateBookData_eq_none_iff]
        refine ⟨?_, hT, hA, ?_⟩
        · rintro ⟨-, -, h3⟩
          rw [hy] at h3
          exact Option.noConfusion h3
        · intro y2 hy2
          rw [hy] at hy2
          cases Option.some.inj hy2
          exact ⟨hy0, hycy⟩
      exact ⟨_, _, BookService.update_found cy id d s b hv hg⟩

/-- Witness for C3 at `cy = 2025`: the create iff at the boundary year 0, and
the update iff for a year-only request against a one-record store. -/
theorem C3_year_boundary_witness :
    jsTrim "T".toList ≠ [] ∧ jsTrim "A".toList ≠ [] ∧
    (validateCreateBookData 2025 ⟨"T".toList, "A".toList, 0⟩ = none ↔
      (0:Int) ≤ 0 ∧ (0:Int) ≤ 2025) ∧
    mapGet (BookService.mk [("k".toList, ⟨"k".toList, "T".toList, "A".toList, 1999⟩)]).books
      "k".toList = some ⟨"k".toList, "T".toList, "A".toList, 1999⟩ ∧
    ((∃ b2 s2, BookService.update 2025 "k".toList ⟨none, none, some 2025⟩
        (BookService.mk [("k".toList, ⟨"k".toList, "T".toList, "A".toList, 1999⟩)])
        = Except.ok (some b2, s2)) ↔ (0:Int) ≤ 2025 ∧ (2025:Int) ≤ 2025) :=
  ⟨by decide, by decide,
   (C3_year_boundary 2025).1 ⟨"T".toList, "A".toList, 0⟩ (by decide) (by decide),
   by decide,
   (C3_year_boundary 2025).2
     (BookService.mk [("k".toList, ⟨"k".toList, "T".toList, "A".toList, 1999⟩)])
     "k".toList ⟨"k".toList, "T".toList, "A".toList, 1999⟩ ⟨none, none, some 2025⟩ 2025
     (by decide) rfl (by intro t ht; exact Option.noConfusion ht)
     (by intro a ha; exact Option.noConfusion ha)⟩

/-- Claim C4: update merge semantics. For a record stored under `id` and a
request that passes validation, `update` returns (and stores under `id`) a
record with the same identifier whose supplied title/author equal the trimmed
supplied values, whose supplied year equals the supplied year, and whose
unsupplied fields keep the previous record's values. -/
theorem C4_update_merge (cy : Int) (id : JStr) (data : UpdateBookData)
    (s : BookService) (b : Book) (hg : mapGet s.books id = some b)
    (hv : validateUpdateBookData cy data = none) :
    ∃ b2 s2, BookService.update cy id data s = Except.ok (some b2, s2) ∧
      b2.id = b.id ∧
      (∀ t, data.title = some t → b2.title = jsTrim t) ∧
      (data.title = none → b2.title = b.title) ∧
      (∀ a, data.author = some a → b2.author = jsTrim a) ∧
      (data.author = none → b2.author = b.author) ∧
      (∀ y, data.year = some y → b2.year = y) ∧
      (data.year = none → b2.year = b.year) ∧
      mapGet s2.books id = some b2 := by
  obtain ⟨-, hT, hA, -⟩ := (validateUpdateBookData_eq_none_iff cy data).1 hv
  refine ⟨updatedBookOf b data, ⟨mapSet s.books id (updatedBookOf b data)⟩,
    BookService.update_found cy id data s b hv hg, rfl, ?_, ?_, ?_, ?_, ?_, ?_, ?_⟩
  · intro t ht
    have htt := hT t ht
    have hne : t.isEmpty = false := List.isEmpty_eq_false.2 (ne_nil_of_jsTrim_ne_nil t htt)
    simp [updatedBookOf, ht, hne, sanitizeString]
  · intro ht
    simp [updatedBookOf, ht]
  · intro a ha
    have haa := hA a ha
    have hne : a.isEmpty = false := List.isEmpty_eq_false.2 (ne_nil_of_jsTrim_ne_nil a haa)
    simp [updatedBookOf, ha, hne, sanitizeString]
  · intro ha
    simp [updatedBookOf, ha]
  · intro y hy
    simp [updatedBookOf, hy]
  · intro hy
    simp [updatedBookOf, hy]
  · rw [mapGet_mapSet]
    simp

/-- Witness for C4: update the title only (with surrounding blanks, which are
trimmed); the author and year keep their previous values. -/
theorem C4_update_merge_witness :
    mapGet (BookService.mk [("k".toList, ⟨"k".toList, "Old".toList, "A".toList, 1999⟩)]).books
      "k".toList = some ⟨"k".toList, "Old".toList, "A".toList, 1999⟩ ∧
    validateUpdateBookData 2025 ⟨some "  New  ".toList, none, none⟩ = none ∧
    (∃ b2 s2, BookService.update 2025 "k".toList ⟨some "  New  ".toList, none, none⟩
        (BookService.mk [("k".toList, ⟨"k".toList, "Old".toList, "A".toList, 1999⟩)])
        = Except.ok (some b2, s2) ∧
      b2.id = ("k".toList : JStr) ∧
      (∀ t, (⟨some "  New  ".toList, none, none⟩ : UpdateBookData).title = some t →
        b2.title = jsTrim t) ∧
      ((⟨some "  New  ".toList, none, none⟩ : UpdateBookData).title = none →
        b2.title = ("Old".toList : JStr)) ∧
      (∀ a, (⟨some "  New  ".toList, none, none⟩ : UpdateBookData).author = some a →
        b2.author = jsTrim a) ∧
      ((⟨some "  New  ".toList, none, none⟩ : UpdateBookData).author = none →
        b2.author = ("A".toList : JStr)) ∧
      (∀ y, (⟨some "  New  ".toList, none, none⟩ : UpdateBookData).year = some y →
        b2.year = y) ∧
      ((⟨some "  New  ".toList, none, none⟩ : UpdateBookData).year = none →
        b2.year = (1999 : Int)) ∧
      mapGet s2.books "k".toList = some b2) :=
  ⟨by decide, by decide,
   C4_update_merge 2025 "k".toList ⟨some "  New  ".toList, none, none⟩
     (BookService.mk [("k".toList, ⟨"k".toList, "Old".toList, "A".toList, 1999⟩)])
     ⟨"k".toList, "Old".toList, "A".toList, 1999⟩ (by decide) (by decide)⟩

/-- Claim C5: pagination contract for positive page sizes. The result has
`totalBooks` equal to the record count; `totalPages` is the ceiling of
`totalBooks / pageSize` (characterized by the two-sided bound
`pageSize * (totalPages - 1) < totalBooks ≤ pageSize * totalPages`);
`currentPage` is `page` clamped into `[1, totalPages]` (and `1` when
`totalPages` is `0`); `books` is the slice of `findAll` over indices
`[(currentPage - 1) * pageSize, currentPage * pageSize)`; `hasNextPage` holds
iff `currentPage < totalPages` and `hasPreviousPage` iff `currentPage > 1`. -/
theorem C5_pagination (s : BookService) (page pageSize : Int) (r : PaginatedBooks)
    (hps : 0 < pageSize) (hr : r = BookService.getPaginated page pageSize s) :
    r.totalBooks = BookService.count s ∧
    pageSize * (r.totalPages - 1) < r.totalBooks ∧
    r.totalBooks ≤ pageSize * r.totalPages ∧
    (r.totalPages = 0 → r.currentPage = 1) ∧
    (0 < r.totalPages → r.currentPage = min (max page 1) r.totalPages) ∧
    1 ≤ r.currentPage ∧
    (0 < r.totalPages → r.currentPage ≤ r.totalPages) ∧
    r.books = jsSlice ((r.currentPage - 1) * pageSize) (r.currentPage * pageSize)
      (BookService.findAll s) ∧
    (r.hasNextPage = true ↔ r.currentPage < r.totalPages) ∧
    (r.hasPreviousPage = true ↔ 1 < r.currentPage) := by
  subst hr
  simp only [BookService.getPaginated]
  set tb : Int := BookService.count s with htb
  set tp : Int := (tb + pageSize - 1) / pageSize with htp
  set cp : Int := max 1 (min page tp) with hcp
  have hdiv := Int.ediv_add_emod (tb + pageSize - 1) pageSize
  have hm0 := Int.emod_nonneg (tb + pageSize - 1) (by omega : pageSize ≠ 0)
  have hmlt := Int.emod_lt_of_pos (tb + pageSize - 1) hps
  rw [← htp] at hdiv
  refine ⟨trivial, ?_, ?_, ?_, ?_, ?_, ?_, ?_, ?_, ?_⟩
  · have hexp : pageSize * (tp - 1) = pageSize * tp - pageSize := by ring
    rw [hexp]
    linarith
  · linarith
  · intro h0
    have h1 := max_choice 1 (min page tp)
    have h2 := min_le_right page tp
    rw [← hcp] at h1
    rcases h1 with h1 | h1
    · exact h1
    · rw [h1]
      have h3 := le_max_left 1 (min page tp)
      rw [← hcp, h1] at h3
      linarith
  · intro h0
    rw [hcp]
    simp only [max_def, min_def]
    split_ifs <;> omega
  · rw [hcp]
    exact le_max_left 1 (min page tp)
  · intro h0
    rw [hcp]
    rcases max_choice 1 (min page tp) with hc | hc <;> rw [hc]
    · omega
    · exact min_le_right _ _
  · rw [show cp * pageSize = (cp - 1) * pageSize + pageSize from by ring]
  · simp
  · simp

/-- Witness for C5: five records with page size 2 and requested page 10 clamp
to current page 3 holding exactly one record, with no next page and a previous
page, as the claim's example states. -/
theorem C5_pagination_witness :
    ((BookService.getPaginated 10 2 (BookService.mk [("1".toList, ⟨"1".toList, "t".toList, "a".toList, 2000⟩), ("2".toList, ⟨"2".toList, "t".toList, "a".toList, 2000⟩), ("3".toList, ⟨"3".toList, "t".toList, "a".toList, 2000⟩), ("4".toList, ⟨"4".toList, "t".toList, "a".toList, 2000⟩), ("5".toList, ⟨"5".toList, "t".toList, "a".toList, 2000⟩)])).currentPage = 3 ∧
     (BookService.getPaginated 10 2 (BookService.mk [("1".toList, ⟨"1".toList, "t".toList, "a".toList, 2000⟩), ("2".toList, ⟨"2".toList, "t".toList, "a".toList, 2000⟩), ("3".toList, ⟨"3".toList, "t".toList, "a".toList, 2000⟩), ("4".toList, ⟨"4".toList, "t".toList, "a".toList, 2000⟩), ("5".toList, ⟨"5".toList, "t".toList, "a".toList, 2000⟩)])).totalPages = 3 ∧
     (BookService.getPaginated 10 2 (BookService.mk [("1".toList, ⟨"1".toList, "t".toList, "a".toList, 2000⟩), ("2".toList, ⟨"2".toList, "t".toList, "a".toList, 2000⟩), ("3".toList, ⟨"3".toList, "t".toList, "a".toList, 2000⟩), ("4".toList, ⟨"4".toList, "t".toList, "a".toList, 2000⟩), ("5".toList, ⟨"5".toList, "t".toList, "a".toList, 2000⟩)])).totalBooks = 5 ∧
     (BookService.getPaginated 10 2 (BookService.mk [("1".toList, ⟨"1".toList, "t".toList, "a".toList, 2000⟩), ("2".toList, ⟨"2".toList, "t".toList, "a".toList, 2000⟩), ("3".toList, ⟨"3".toList, "t".toList, "a".toList, 2000⟩), ("4".toList, ⟨"4".toList, "t".toList, "a".toList, 2000⟩), ("5".toList, ⟨"5".toList, "t".toList, "a".toList, 2000⟩)])).books.length = 1 ∧
     (BookService.getPaginated 10 2 (BookService.mk [("1".toList, ⟨"1".toList, "t".toList, "a".toList, 2000⟩), ("2".toList, ⟨"2".toList, "t".toList, "a".toList, 2000⟩), ("3".toList, ⟨"3".toList, "t".toList, "a".toList, 2000⟩), ("4".toList, ⟨"4".toList, "t".toList, "a".toList, 2000⟩), ("5".toList, ⟨"5".toList, "t".toList, "a".toList, 2000⟩)])).hasNextPage = false) ∧
    ((BookService.getPaginated 10 2 (BookService.mk [("1".toList, ⟨"1".toList, "t".toList, "a".toList, 2000⟩), ("2".toList, ⟨"2".toList, "t".toList, "a".toList, 2000⟩), ("3".toList, ⟨"3".toList, "t".toList, "a".toList, 2000⟩), ("4".toList, ⟨"4".toList, "t".toList, "a".toList, 2000⟩), ("5".toList, ⟨"5".toList, "t".toList, "a".toList, 2000⟩)])).hasPreviousPage = true ↔
      1 < (BookService.getPaginated 10 2 (BookService.mk [("1".toList, ⟨"1".toList, "t".toList, "a".toList, 2000⟩), ("2".toList, ⟨"2".toList, "t".toList, "a".toList, 2000⟩), ("3".toList, ⟨"3".toList, "t".toList, "a".toList, 2000⟩), ("4".toList, ⟨"4".toList, "t".toList, "a".toList, 2000⟩), ("5".toList, ⟨"5".toList, "t".toList, "a".toList, 2000⟩)])).currentPage) :=
  ⟨by decide,
   (C5_pagination (BookService.mk [("1".toList, ⟨"1".toList, "t".toList, "a".toList, 2000⟩), ("2".toList, ⟨"2".toList, "t".toList, "a".toList, 2000⟩), ("3".toList, ⟨"3".toList, "t".toList, "a".toList, 2000⟩), ("4".toList, ⟨"4".toList, "t".toList, "a".toList, 2000⟩), ("5".toList, ⟨"5".toList, "t".toList, "a".toList, 2000⟩)]) 10 2
      (BookService.getPaginated 10 2 (BookService.mk [("1".toList, ⟨"1".toList, "t".toList, "a".toList, 2000⟩), ("2".toList, ⟨"2".toList, "t".toList, "a".toList, 2000⟩), ("3".toList, ⟨"3".toList, "t".toList, "a".toList, 2000⟩), ("4".toList, ⟨"4".toList, "t".toList, "a".toList, 2000⟩), ("5".toList, ⟨"5".toList, "t".toList, "a".toList, 2000⟩)])) (by decide) rfl).2.2.2.2.2.2.2.2.2⟩

/-- Claim C6: for an identifier absent from the store and an update request
that passes validation, `safeUpdate` returns a failure outcome whose error is a
`BookNotFoundError` constructed with that id — its message embeds the id — while
plain `update` on the same inputs returns the absent (`null`) result without
raising. -/
theorem C6_safeUpdate_not_found (cy : Int) (id : JStr) (data : UpdateBookData)
    (s : BookService) (hv : validateUpdateBookData cy data = none)
    (habs : mapGet s.books id = none) :
    BookService.safeUpdate cy id data s = (Result.failure (JsError.bookNotFoundError id), s) ∧
    id <:+: (JsError.bookNotFoundError id).message ∧
    BookService.update cy id data s = Except.ok (none, s) := by
  have hupd := BookService.update_absent cy id data s hv habs
  refine ⟨?_, ?_, hupd⟩
  · unfold BookService.safeUpdate
    rw [hupd]
  · exact ⟨"Book with id ".toList ++ [squoteChar], [squoteChar] ++ " not found".toList, by
      simp [JsError.message]⟩

/-- Witness for C6: a validated title-only update against an empty store. -/
theorem C6_safeUpdate_not_found_witness :
    validateUpdateBookData 2025 ⟨some "T".toList, none, none⟩ = none ∧
    mapGet BookService.empty.books "ghost".toList = none ∧
    (BookService.safeUpdate 2025 "ghost".toList ⟨some "T".toList, none, none⟩ BookService.empty
        = (Result.failure (JsError.bookNotFoundError "ghost".toList), BookService.empty) ∧
     ("ghost".toList : JStr) <:+: (JsError.bookNotFoundError "ghost".toList).message ∧
     BookService.update 2025 "ghost".toList ⟨some "T".toList, none, none⟩ BookService.empty
        = Except.ok (none, BookService.empty)) :=
  ⟨by decide, by decide,
   C6_safeUpdate_not_found 2025 "ghost".toList ⟨some "T".toList, none, none⟩ BookService.empty
     (by decide) (by decide)⟩

/-- Claim C7: search characterization. `findByAuthor s` returns exactly the
records whose lower-cased author contains the lower-cased trimmed query as a
substring (surrounding whitespace of the argument is ignored; the code trims
after lowering, which commutes), in the stable order of `findAll`, and the
empty list when no record matches; `findByTitle` is the same against titles. -/
theorem C7_search_characterization (s : BookService) (q : JStr) :
    BookService.findByAuthor q s =
      (BookService.findAll s).filter
        (fun b => jsIncludes (jsToLower b.author) (jsToLower (jsTrim q))) ∧
    BookService.findByTitle q s =
      (BookService.findAll s).filter
        (fun b => jsIncludes (jsToLower b.title) (jsToLower (jsTrim q))) ∧
    (∀ b, b ∈ BookService.findByAuthor q s ↔
      b ∈ BookService.findAll s ∧ jsToLower (jsTrim q) <:+: jsToLower b.author) ∧
    (BookService.findByAuthor q s).Sublist (BookService.findAll s) ∧
    (BookService.findByAuthor q s = [] ↔
      ∀ b ∈ BookService.findAll s, ¬ jsToLower (jsTrim q) <:+: jsToLower b.author) ∧
    (∀ b, b ∈ BookService.findByTitle q s ↔
      b ∈ BookService.findAll s ∧ jsToLower (jsTrim q) <:+: jsToLower b.title) ∧
    (BookService.findByTitle q s).Sublist (BookService.findAll s) ∧
    (BookService.findByTitle q s = [] ↔
      ∀ b ∈ BookService.findAll s, ¬ jsToLower (jsTrim q) <:+: jsToLower b.title) := by
  have hkey : jsTrim (jsToLower q) = jsToLower (jsTrim q) := jsTrim_jsToLower q
  have hA : BookService.findByAuthor q s = (BookService.findAll s).filter
      (fun b => jsIncludes (jsToLower b.author) (jsToLower (jsTrim q))) := by
    unfold BookService.findByAuthor
    rw [hkey]
  have hT : BookService.findByTitle q s = (BookService.findAll s).filter
      (fun b => jsIncludes (jsToLower b.title) (jsToLower (jsTrim q))) := by
    unfold BookService.findByTitle
    rw [hkey]
  refine ⟨hA, hT, ?_, ?_, ?_, ?_, ?_, ?_⟩
  · intro b
    simp [hA, List.mem_filter, jsIncludes_iff_substring]
  · rw [hA]
    exact List.filter_sublist _
  · rw [hA, List.filter_eq_nil_iff]
    simp [jsIncludes_iff_substring]
  · intro b
    simp [hT, List.mem_filter, jsIncludes_iff_substring]
  · rw [hT]
    exact List.filter_sublist _
  · rw [hT, List.filter_eq_nil_iff]
    simp [jsIncludes_iff_substring]

/-- Claim C8: create/findById round-trip. For a creation request that passes
validation, looking up the identifier of the record returned by `create`
immediately afterwards returns a record equal in all fields. -/
theorem C8_create_findById_roundtrip (cy : Int) (newId : JStr) (data : CreateBookData)
    (s : BookService) (hv : validateCreateBookData cy data = none) :
    ∃ b s2, BookService.create cy newId data s = Except.ok (b, s2) ∧
      BookService.findById b.id s2 = some b := by
  refine ⟨_, _, BookService.create_ok cy newId data s hv, ?_⟩
  unfold BookService.findById
  show mapGet (mapSet s.books newId _) newId = _
  rw [mapGet_mapSet]
  simp

/-- Witness for C8: create on the empty store and read the record back. -/
theorem C8_create_findById_roundtrip_witness :
    validateCreateBookData 2025 ⟨"T".toList, "A".toList, 2000⟩ = none ∧
    ∃ b s2, BookService.create 2025 "n".toList ⟨"T".toList, "A".toList, 2000⟩ BookService.empty
        = Except.ok (b, s2) ∧ BookService.findById b.id s2 = some b :=
  ⟨by decide,
   C8_create_findById_roundtrip 2025 "n".toList ⟨"T".toList, "A".toList, 2000⟩
     BookService.empty (by decide)⟩

/-- Counterexample to C9 as stated: `generateId` builds the identifier purely
from the `Date.now()` millisecond and the `Math.random()` suffix, so two calls
in immediate succession that observe the same millisecond and draw the same
random suffix return equal values — the code cannot guarantee that two
successive calls never return equal identifiers. -/
theorem C9_generateId_counterexample :
    generateId "1700000000000".toList "q3k9z7x1a".toList
      = generateId "1700000000000".toList "q3k9z7x1a".toList := rfl

/-- Claim C9 (amended): every generated identifier is a non-empty string (it
starts with the constant prefix `book_`), and two calls in immediate succession
— same `Date.now()` value — return distinct identifiers whenever their random
components differ; distinctness is therefore only as good as the environment's
samples, not guaranteed by the code. -/
theorem C9_generateId_contract (nowMs rand1 rand2 : JStr) :
    generateId nowMs rand1 ≠ [] ∧
    (rand1 ≠ rand2 → generateId nowMs rand1 ≠ generateId nowMs rand2) := by
  constructor
  · simp [generateId]
  · intro hne heq
    apply hne
    simpa [generateId] using heq

/-- Witness for C9 (amended) at concrete samples. -/
theorem C9_generateId_contract_witness :
    generateId "17".toList "ab".toList ≠ [] ∧
    generateId "17".toList "ab".toList ≠ generateId "17".toList "cd".toList :=
  ⟨(C9_generateId_contract "17".toList "ab".toList "cd".toList).1,
   (C9_generateId_contract "17".toList "ab".toList "cd".toList).2 (by decide)⟩

/-- Claim C10 (amended): frame property. `update` (whatever its outcome) and
`delete` leave the record stored under every other identifier unchanged. A
successful `create` leaves the records under all other identifiers unchanged
and stores the returned record under the generated id: it appends exactly one
fresh entry when that id is not yet a key of the mapping, but when the
generated id collides with an existing key — which the code cannot rule out,
freshness of `generateId` being only probabilistic (see C9) — `books.set`
overwrites the previously stored record in place instead of adding an entry. -/
theorem C10_frame (cy : Int) :
    (∀ (id id2 : JStr) (data : UpdateBookData) (s : BookService)
        (r : Option Book × BookService),
      id2 ≠ id → BookService.update cy id data s = Except.ok r →
      mapGet r.2.books id2 = mapGet s.books id2) ∧
    (∀ (id id2 : JStr) (s : BookService), id2 ≠ id →
      mapGet (BookService.delete id s).2.books id2 = mapGet s.books id2) ∧
    (∀ (newId : JStr) (data : CreateBookData) (s : BookService) (b : Book)
        (s2 : BookService),
      BookService.create cy newId data s = Except.ok (b, s2) →
      mapGet s.books newId = none →
      s2.books = s.books ++ [(newId, b)]) ∧
    (∀ (newId : JStr) (data : CreateBookData) (s : BookService) (b : Book)
        (s2 : BookService),
      BookService.create cy newId data s = Except.ok (b, s2) →
      mapGet s2.books newId = some b ∧
      ∀ id2, id2 ≠ newId → mapGet s2.books id2 = mapGet s.books id2) := by
  refine ⟨?_, ?_, ?_, ?_⟩
  · intro id id2 data s r hne hok
    cases hv : validateUpdateBookData cy data with
    | some e =>
      have herr : BookService.update cy id data s = Except.error e := by
        unfold BookService.update
        rw [hv]
      rw [herr] at hok
      exact Except.noConfusion hok
    | none =>
      cases hg : mapGet s.books id with
      | none =>
        rw [BookService.update_absent cy id data s hv hg] at hok
        cases Except.ok.inj hok
        rfl
      | some b =>
        rw [BookService.update_found cy id data s b hv hg] at hok
        cases Except.ok.inj hok
        show mapGet (mapSet s.books id (updatedBookOf b data)) id2 = mapGet s.books id2
        rw [mapGet_mapSet, if_neg (fun h => hne h.symm)]
  · intro id id2 s hne
    show mapGet (mapDelete s.books id).2 id2 = mapGet s.books id2
    exact mapGet_mapDelete_ne s.books id id2 hne
  · intro newId data s b s2 hok hfresh
    cases hv : validateCreateBookData cy data with
    | some e =>
      have herr : BookService.create cy newId data s = Except.error e := by
        unfold BookService.create
        rw [hv]
      rw [herr] at hok
      exact Except.noConfusion hok
    | none =>
      rw [BookService.create_ok cy newId data s hv] at hok
      cases Except.ok.inj hok
      show mapSet s.books newId _ = s.books ++ [(newId, _)]
      exact mapSet_fresh s.books newId _ hfresh
  · intro newId data s b s2 hok
    cases hv : validateCreateBookData cy data with
    | some e =>
      have herr : BookService.create cy newId data s = Except.error e := by
        unfold BookService.create
        rw [hv]
      rw [herr] at hok
      exact Except.noConfusion hok
    | none =>
      rw [BookService.create_ok cy newId data s hv] at hok
      cases Except.ok.inj hok
      constructor
      · show mapGet (mapSet s.books newId _) newId = _
        rw [mapGet_mapSet, if_pos rfl]
      · intro id2 hne
        show mapGet (mapSet s.books newId _) id2 = mapGet s.books id2
        rw [mapGet_mapSet, if_neg (fun h => hne h.symm)]

/-- Counterexample to C10 as stated: when the id handed out by `generateId`
collides with an existing key of the mapping — which the code cannot prevent,
see C9 — a successful `create` does not leave every previously stored record
unchanged and add a new entry: `books.set` overwrites the record stored under
the colliding key, and the number of entries does not grow. -/
theorem C10_frame_counterexample :
    mapGet (BookService.mk
        [("k".toList, ⟨"k".toList, "Old".toList, "A".toList, 2000⟩)]).books "k".toList
      = some ⟨"k".toList, "Old".toList, "A".toList, 2000⟩ ∧
    BookService.create 2025 "k".toList ⟨"New".toList, "B".toList, 2001⟩
        (BookService.mk [("k".toList, ⟨"k".toList, "Old".toList, "A".toList, 2000⟩)])
      = Except.ok (⟨"k".toList, "New".toList, "B".toList, 2001⟩,
          BookService.mk [("k".toList, ⟨"k".toList, "New".toList, "B".toList, 2001⟩)]) ∧
    mapGet (BookService.mk
        [("k".toList, ⟨"k".toList, "New".toList, "B".toList, 2001⟩)]).books "k".toList
      ≠ some ⟨"k".toList, "Old".toList, "A".toList, 2000⟩ ∧
    (BookService.mk
        [("k".toList, ⟨"k".toList, "New".toList, "B".toList, 2001⟩)]).books.length
      = (BookService.mk
        [("k".toList, ⟨"k".toList, "Old".toList, "A".toList, 2000⟩)]).books.length :=
  ⟨by decide, rfl, by decide, by decide⟩

/-- Witness for C10 (amended): delete one key of a two-record store, the other
record is untouched. -/
theorem C10_frame_witness :
    (("x".toList : JStr) ≠ "y".toList ∧
      mapGet (BookService.delete "y".toList
          (BookService.mk [("x".toList, ⟨"x".toList, "t".toList, "a".toList, 2000⟩),
            ("y".toList, ⟨"y".toList, "u".toList, "b".toList, 2001⟩)])).2.books "x".toList
        = mapGet (BookService.mk [("x".toList, ⟨"x".toList, "t".toList, "a".toList, 2000⟩),
            ("y".toList, ⟨"y".toList, "u".toList, "b".toList, 2001⟩)]).books "x".toList) :=
  ⟨by decide,
   (C10_frame 2025).2.1 "y".toList "x".toList
     (BookService.mk [("x".toList, ⟨"x".toList, "t".toList, "a".toList, 2000⟩),
       ("y".toList, ⟨"y".toList, "u".toList, "b".toList, 2001⟩)]) (by decide)⟩

/-- Witness for C7: an upper-cased query with surrounding blanks matches the
stored author case-insensitively, and the filter characterization holds on a
concrete store. -/
theorem C7_search_characterization_witness :
    BookService.findByAuthor " HERB ".toList (BookService.mk [("1".toList, ⟨"1".toList, "Dune".toList, "Frank Herbert".toList, 1965⟩)])
      = [⟨"1".toList, "Dune".toList, "Frank Herbert".toList, 1965⟩] ∧
    BookService.findByAuthor " HERB ".toList (BookService.mk [("1".toList, ⟨"1".toList, "Dune".toList, "Frank Herbert".toList, 1965⟩)])
      = (BookService.findAll (BookService.mk [("1".toList, ⟨"1".toList, "Dune".toList, "Frank Herbert".toList, 1965⟩)])).filter
          (fun b => jsIncludes (jsToLower b.author) (jsToLower (jsTrim " HERB ".toList))) :=
  ⟨by decide,
   (C7_search_characterization (BookService.mk [("1".toList, ⟨"1".toList, "Dune".toList, "Frank Herbert".toList, 1965⟩)]) " HERB ".toList).1⟩
